import Mathlib

/-!
Shallow embedding of the cost-analysis pipeline of
src/python/cost_analyzer/analyzer.py (class MultiCloudCostAnalyzer):
get_cost_summary, detect_anomalies and generate_recommendations, which all
consume the pandas DataFrame built in generate_cost_report.

Modelling conventions:
* a DataFrame is a list of rows in row order;
* Python floats are modelled as rationals, so float literals such as 1.2
  denote the exact rational 6/5;
* dates are modelled as natural day numbers; the source formats dates with
  strftime as YYYY-MM-DD, and lexicographic order on those fixed-width
  strings coincides with chronological order, so sorting by the formatted
  string is sorting by the day number;
* pandas groupby (default sort=True) lists the distinct keys in ascending
  order; Series.unique lists values in order of first appearance;
  Series.sort_values(ascending=False) reverses an ascending argsort
  (pandas nargsort), and numpy introsort degenerates to a stable insertion
  sort on the small series arising here, so it is modelled as the reverse
  of a stable ascending sort;
* Series.std() uses ddof=1 (sample standard deviation) and yields NaN on a
  one-element series; since the standard deviation is an irrational square
  root, the embedding carries the (rational) variance instead and the
  comparisons on z-scores are translated to equivalent comparisons of
  squares, as documented at rowAnomaly.
-/

/-- Row of the DataFrame built in generate_cost_report (analyzer.py lines
200 to 206): columns date, cloud_provider, service, cost, currency. -/
structure CostRow where
  date : Nat
  cloud_provider : String
  service : String
  cost : ℚ
  currency : String
deriving DecidableEq, Repr

/-- Result record of detect_anomalies (analyzer.py lines 245 to 251).
The source also carries an expected_range string formatted from
mean ± threshold · std; the std is an irrational square root and no claim
concerns that field, so it is not modelled. -/
structure Anomaly where
  date : Nat
  provider : String
  cost : ℚ
  severity : String
deriving DecidableEq, Repr

/-- Result record of get_cost_summary (analyzer.py lines 215 to 224).
date_range holds the min and max date of the DataFrame (the source formats
them with strftime). -/
structure Summary where
  total_cost : ℚ
  average_daily_cost : ℚ
  cost_by_provider : List (String × ℚ)
  cost_by_service : List (String × ℚ)
  date_range : Nat × Nat
deriving DecidableEq, Repr

/-- Worker of uniqueList: keeps the elements not seen before, first
occurrences first. -/
def uniqueAux {α : Type} [DecidableEq α] (seen : List α) : List α → List α
  | [] => []
  | a :: l => if a ∈ seen then uniqueAux seen l else a :: uniqueAux (a :: seen) l

/-- pandas Series.unique: the distinct values in order of first appearance. -/
def uniqueList {α : Type} [DecidableEq α] (l : List α) : List α := uniqueAux [] l

/-- pandas df.groupby(key)[cost].sum() with the default sort=True: the
distinct keys in ascending order, each paired with the sum of the cost
column over the rows carrying that key. -/
def groupSumBy {κ : Type} [DecidableEq κ] (le : κ → κ → Prop) [DecidableRel le]
    (key : CostRow → κ) (df : List CostRow) : List (κ × ℚ) :=
  (List.insertionSort le (uniqueList (df.map key))).map
    (fun k => (k, ((df.filter (fun r => key r = k)).map CostRow.cost).sum))

/-- Lexicographic order on (date, provider) keys: groupby on two columns
sorts by the first key, then the second. -/
def pairLe (a b : Nat × String) : Prop := a.1 < b.1 ∨ (a.1 = b.1 ∧ a.2 ≤ b.2)

instance : DecidableRel pairLe := fun a b => by unfold pairLe; infer_instance

/-- df.groupby([date, cloud_provider])[cost].sum().reset_index()
(analyzer.py line 233). -/
def dailyCosts (df : List CostRow) : List ((Nat × String) × ℚ) :=
  groupSumBy pairLe (fun r => (r.date, r.cloud_provider)) df

/-- df.groupby(cloud_provider)[cost].sum() (analyzer.py lines 218 and 268). -/
def providerSums (df : List CostRow) : List (String × ℚ) :=
  groupSumBy (fun a b => a ≤ b) CostRow.cloud_provider df

/-- df.groupby(service)[cost].sum() (analyzer.py lines 219 and 263). -/
def serviceSums (df : List CostRow) : List (String × ℚ) :=
  groupSumBy (fun a b => a ≤ b) CostRow.service df

/-- df.groupby(date)[cost].sum() (analyzer.py lines 217 and 274). -/
def dailyTotals (df : List CostRow) : List (Nat × ℚ) :=
  groupSumBy (fun a b => a ≤ b) CostRow.date df

/-- pandas Series.sort_values(ascending=False): pandas nargsort performs an
ascending argsort and reverses the indexer, and on the series sizes arising
here numpy introsort is a stable insertion sort, so the result is the
reverse of a stable ascending sort by value. -/
def sortValuesDesc (l : List (String × ℚ)) : List (String × ℚ) :=
  (List.insertionSort (fun a b => a.2 ≤ b.2) l).reverse

/-- df.groupby(service)[cost].sum().sort_values(ascending=False): the
per-service ranking that get_cost_summary truncates to 10 entries and
generate_recommendations truncates to 3. -/
def serviceRanking (df : List CostRow) : List (String × ℚ) :=
  sortValuesDesc (serviceSums df)

/-- pandas Series.std() with the default ddof=1: the sample standard
deviation, NaN (modelled as none) on series of length at most 1.  The value
recorded is the variance, the square of the std, which stays rational. -/
def sampleVar (xs : List ℚ) : Option ℚ :=
  if 2 ≤ xs.length then
    some ((xs.map (fun x => (x - xs.sum / (xs.length : ℚ)) ^ 2)).sum
      / ((xs.length : ℚ) - 1))
  else none

/-- df[date].min() over the DataFrame rows. -/
def minDate (df : List CostRow) : Nat := ((df.map CostRow.date).min?).getD 0

/-- df[date].max() over the DataFrame rows. -/
def maxDate (df : List CostRow) : Nat := ((df.map CostRow.date).max?).getD 0

/-- get_cost_summary (analyzer.py lines 210 to 226); the empty DataFrame
yields the error dictionary, modelled as Except.error with its message. -/
def get_cost_summary (df : List CostRow) : Except String Summary :=
  if df.isEmpty then .error "No cost data available" else
  .ok { total_cost := (df.map CostRow.cost).sum
      , average_daily_cost :=
          ((dailyTotals df).map (fun x => x.2)).sum / ((dailyTotals df).length : ℚ)
      , cost_by_provider := providerSums df
      , cost_by_service := (serviceRanking df).take 10
      , date_range := (minDate df, maxDate df) }

/-- One step of the per-row anomaly check (analyzer.py lines 241 to 251).
stdPos models the guard std_cost > 0, false when the std is NaN (series of
length 1, sampleVar = none) or zero.  Under the guard, z = (cost - mean)/std
with std = sqrt var > 0, so
  abs z > t  iff  t < 0 ∨ (cost - mean)^2 > t^2 · var,
and abs z > 3 iff (cost - mean)^2 > 9 · var; without the guard the source
sets z = 0, and abs 0 > t iff t < 0. -/
def stdPosB (varOpt : Option ℚ) : Bool :=
  match varOpt with
  | some v => decide (0 < v)
  | none => false

/-- abs z_score > t, expressed on the deviation dev = cost − mean and the
variance, as derived in the comment above. -/
def rowFlagged (varOpt : Option ℚ) (t dev : ℚ) : Bool :=
  if stdPosB varOpt then decide (t < 0) || decide (t ^ 2 * varOpt.getD 0 < dev ^ 2)
  else decide (t < 0)

/-- abs z_score > 3, expressed on the deviation and the variance. -/
def rowSevHigh (varOpt : Option ℚ) (dev : ℚ) : Bool :=
  stdPosB varOpt && decide (9 * varOpt.getD 0 < dev ^ 2)

def rowAnomaly (mean : ℚ) (varOpt : Option ℚ) (t : ℚ) (x : (Nat × String) × ℚ) :
    Option Anomaly :=
  if rowFlagged varOpt t (x.2 - mean) then
    some { date := x.1.1, provider := x.1.2, cost := x.2
         , severity := if rowSevHigh varOpt (x.2 - mean) then "high" else "medium" }
  else none

/-- Date-descending order on anomalies: the source sorts by the YYYY-MM-DD
date string with reverse=True. -/
def dateGe (a b : Anomaly) : Prop := b.date ≤ a.date

instance : DecidableRel dateGe := fun a b => by unfold dateGe; infer_instance

/-- provider_data (analyzer.py line 237): the rows of the daily series
belonging to one provider, in date-ascending order. -/
def providerData (daily : List ((Nat × String) × ℚ)) (p : String) :
    List ((Nat × String) × ℚ) :=
  daily.filter (fun x => x.1.2 = p)

/-- provider_data[cost]: the cost series of one provider. -/
def providerCosts (daily : List ((Nat × String) × ℚ)) (p : String) : List ℚ :=
  (providerData daily p).map (fun x => x.2)

/-- Anomaly rows contributed by one provider: the body of the provider loop
(analyzer.py lines 236 to 251). -/
def providerAnomalies (daily : List ((Nat × String) × ℚ)) (t : ℚ) (p : String) :
    List Anomaly :=
  (providerData daily p).filterMap
    (rowAnomaly ((providerCosts daily p).sum / ((providerCosts daily p).length : ℚ))
      (sampleVar (providerCosts daily p)) t)

/-- detect_anomalies (analyzer.py lines 228 to 253): per provider taken in
order of first appearance in the (date, provider)-sorted daily series,
z-score each daily total against the provider mean and sample std, collect
the rows beyond the threshold and sort the result by date descending
(Python sorted is stable, as is insertionSort). -/
def detect_anomalies (df : List CostRow) (threshold : ℚ) : List Anomaly :=
  if df.isEmpty then [] else
  List.insertionSort dateGe
    ((uniqueList ((dailyCosts df).map (fun x => x.1.2))).flatMap
      (providerAnomalies (dailyCosts df) threshold))

/-- Rounding to the nearest integer, ties to even, as Python fixed-point
string formatting rounds (applied here to the rational model of the value). -/
def roundHalfEven (q : ℚ) : Int :=
  let f := ⌊q⌋
  if 1/2 < q - f then f + 1
  else if q - f < 1/2 then f
  else if f % 2 = 0 then f else f + 1

/-- Left-pads a digit string with zeros to the requested width. -/
def padLeftZeros (n : Nat) (s : String) : String :=
  String.mk (List.replicate (n - s.length) '0') ++ s

/-- Python format specifier .2f respectively .1f: fixed-point rendering
with the requested number of fractional digits. -/
def fmtFixed (prec : Nat) (q : ℚ) : String :=
  let n := roundHalfEven (q * ((10 : ℚ) ^ prec))
  let sign := if n < 0 then "-" else ""
  let a := n.natAbs
  sign ++ toString (a / 10 ^ prec) ++ "." ++ padLeftZeros prec (toString (a % 10 ^ prec))

/-- Message emitted by the trend branch of generate_recommendations
(analyzer.py line 280). -/
def spikeWarning : String :=
  "Recent costs are 20% above average - investigate recent deployments"

/-- pandas Series.idxmax: the first entry attaining the maximal value,
together with that value. -/
def idxmaxEntry (l : List (String × ℚ)) : String × ℚ :=
  match l with
  | [] => ("", 0)
  | x :: xs => xs.foldl (fun best y => if best.2 < y.2 then y else best) x

/-- High-cost services block of generate_recommendations (analyzer.py
lines 262 to 265): one line per top-3 costliest service. -/
def topServiceRecs (df : List CostRow) : List String :=
  ((serviceRanking df).take 3).map
    (fun sc => "Review " ++ sc.1 ++ " usage - accounts for $" ++ fmtFixed 2 sc.2 ++ " in costs")

/-- Provider distribution block of generate_recommendations (analyzer.py
lines 267 to 271): when more than one provider is present, name the
provider of maximal total cost and its percentage share. -/
def providerShareRecs (df : List CostRow) : List String :=
  if 1 < (providerSums df).length then
    ["Consider workload distribution - " ++ (idxmaxEntry (providerSums df)).1
      ++ " accounts for "
      ++ fmtFixed 1 ((idxmaxEntry (providerSums df)).2
          / ((providerSums df).map (fun x => x.2)).sum * 100) ++ "% of costs"]
  else []

/-- daily_trend.tail(7).mean() (analyzer.py line 276): mean of the last 7
entries of the date-ascending daily totals. -/
def recentAvg (df : List CostRow) : ℚ :=
  let recent := (((dailyTotals df).map (fun x => x.2)).reverse.take 7).reverse
  recent.sum / (recent.length : ℚ)

/-- daily_trend.mean() (analyzer.py line 277): mean of all daily totals. -/
def overallAvg (df : List CostRow) : ℚ :=
  ((dailyTotals df).map (fun x => x.2)).sum / (((dailyTotals df).map (fun x => x.2)).length : ℚ)

/-- Daily trend block of generate_recommendations (analyzer.py lines 273
to 280): when more than 7 distinct dates are present, compare the mean of
the last 7 daily totals against the mean of all daily totals; the float
literal 1.2 is the rational 6/5. -/
def trendRecs (df : List CostRow) : List String :=
  if 7 < (dailyTotals df).length then
    if overallAvg df * (6/5) < recentAvg df then [spikeWarning] else []
  else []

/-- generate_recommendations (analyzer.py lines 255 to 282): sentinel on
the empty DataFrame, otherwise the three blocks in their fixed order. -/
def generate_recommendations (df : List CostRow) : List String :=
  if df.isEmpty then ["No data available for recommendations"] else
  topServiceRecs df ++ providerShareRecs df ++ trendRecs df

/-! Concrete datasets used in claims and witnesses. -/

/-- Builds the rows of one provider reporting one service at the given
per-day costs. -/
def mkRows (p svc : String) (costs : List (Nat × ℚ)) : List CostRow :=
  costs.map (fun dc =>
    { date := dc.1, cloud_provider := p, service := svc, cost := dc.2, currency := "USD" })

/-- Scenario dataset of the spec: three providers at 100 per day for 10
days, except AWS reports 500 on day 5. -/
def exScenario : List CostRow :=
  mkRows "AWS" "EC2"
    [(1, 100), (2, 100), (3, 100), (4, 100), (5, 500),
     (6, 100), (7, 100), (8, 100), (9, 100), (10, 100)]
  ++ mkRows "Azure" "VM"
    [(1, 100), (2, 100), (3, 100), (4, 100), (5, 100),
     (6, 100), (7, 100), (8, 100), (9, 100), (10, 100)]
  ++ mkRows "GCP" "GCE"
    [(1, 100), (2, 100), (3, 100), (4, 100), (5, 100),
     (6, 100), (7, 100), (8, 100), (9, 100), (10, 100)]

/-- One provider with the identical daily total on both of its days. -/
def exTwoFlat : List CostRow := mkRows "AWS" "EC2" [(1, 100), (2, 100)]

/-- One provider with records on exactly one distinct date. -/
def exOneDay : List CostRow := mkRows "AWS" "EC2" [(1, 100)]

/-- Two services with exactly equal totals, Alpha encountered first. -/
def exTie : List CostRow :=
  [{ date := 1, cloud_provider := "AWS", service := "Alpha", cost := 50, currency := "USD" },
   { date := 1, cloud_provider := "AWS", service := "Beta", cost := 50, currency := "USD" }]

/-- Two providers, each with one spiking day: provider A spikes on
2024-01-10, provider B on 2024-01-05 (dates as day numbers). -/
def exTwoSpikes : List CostRow :=
  mkRows "A" "svc"
    [(20240101, 100), (20240102, 100), (20240103, 100), (20240104, 100), (20240110, 500)]
  ++ mkRows "B" "svc"
    [(20240101, 100), (20240102, 100), (20240103, 100), (20240104, 100), (20240105, 500)]

/-- Two distinct dates spanning a 20-day window, with a large cost rise at
the end. -/
def exSparse : List CostRow := mkRows "AWS" "svc" [(1, 10), (20, 1000)]

/-! Spec-side definitions for the refinement comparison of claim C7; they
follow the words of the spec, not the source. -/

/-- Modelled from the spec: the reporting window of a dataset, spanning
max date − min date + 1 inclusive calendar days (section 3 of the spec
defines the window as the inclusive date range covering the records). -/
def specWindowSpan (df : List CostRow) : Nat := maxDate df - minDate df + 1

/-- Modelled from the spec: the mean of the most recent 7 days total daily
cost, read over the distinct dates present within the last 7 calendar days
of the window. -/
def specRecentMean (df : List CostRow) : ℚ :=
  let recent := (dailyTotals df).filter (fun x => maxDate df < x.1 + 7)
  (recent.map (fun x => x.2)).sum / (recent.length : ℚ)

/-! Claim theorems. -/

/-- C1: for every non-empty dataset, the total_cost field of the summary
returned by get_cost_summary equals the sum of the cost field over every
record in the dataset. -/
theorem C1_total_cost_eq_sum (df : List CostRow) (h : df ≠ []) :
    ∃ s, get_cost_summary df = Except.ok s ∧
      s.total_cost = (df.map CostRow.cost).sum := by
  unfold get_cost_summary
  rw [if_neg (fun hc => h (List.isEmpty_iff.mp hc))]
  exact ⟨_, rfl, rfl⟩

/-- Witness for C1 at the one-row dataset exOneDay. -/
theorem C1_total_cost_eq_sum_witness :
    exOneDay ≠ [] ∧ ∃ s, get_cost_summary exOneDay = Except.ok s ∧
      s.total_cost = (exOneDay.map CostRow.cost).sum :=
  ⟨by decide, C1_total_cost_eq_sum exOneDay (by decide)⟩

/-- C2: counterexample.  On the exact scenario dataset the detector with
threshold 2 does flag the AWS day-5 record, but with severity medium, not
high: the AWS series has mean 140 and sample variance 16000 (std about
126.49), so the z-score 360/126.49 is about 2.85, above the threshold 2
but not above 3. -/
theorem C2_counterexample :
    detect_anomalies exScenario 2 =
      [{ date := 5, provider := "AWS", cost := 500, severity := "medium" }] := by
  with_unfolding_all rfl

set_option maxRecDepth 100000 in
/-- C2 amended: on the scenario dataset total_cost is 3400 and
detect_anomalies with threshold 2 flags exactly the AWS day-5 record, whose
z-score exceeds the threshold, with severity medium. -/
theorem C2_amended_scenario :
    (get_cost_summary exScenario).map Summary.total_cost = Except.ok 3400 ∧
    detect_anomalies exScenario 2 =
      [{ date := 5, provider := "AWS", cost := 500, severity := "medium" }] := by
  constructor
  · with_unfolding_all rfl
  · with_unfolding_all rfl

/-- C3: counterexample.  The claim quantifies over every threshold; at the
negative threshold -1 the zero-variance provider AWS of exTwoFlat is
flagged on both of its days, because the guard std_cost > 0 fails, the
z-score is taken as 0, and abs 0 > -1 holds. -/
theorem C3_counterexample :
    detect_anomalies exTwoFlat (-1) =
      [{ date := 2, provider := "AWS", cost := 100, severity := "medium" },
       { date := 1, provider := "AWS", cost := 100, severity := "medium" }] := by
  with_unfolding_all rfl

/-- C4: on the empty dataset, get_cost_summary returns the explicit
no-data error value, detect_anomalies returns the empty list for every
threshold, and generate_recommendations returns exactly the one sentinel
message. -/
theorem C4_empty_dataset :
    get_cost_summary [] = Except.error "No cost data available" ∧
    (∀ t : ℚ, detect_anomalies [] t = []) ∧
    generate_recommendations [] = ["No data available for recommendations"] :=
  ⟨rfl, fun _ => rfl, rfl⟩

instance : IsTotal Anomaly dateGe := ⟨fun a b => Nat.le_total b.date a.date⟩

instance : IsTrans Anomaly dateGe := ⟨fun _ _ _ h1 h2 => Nat.le_trans h2 h1⟩

/-- C5: for every dataset and threshold the anomaly list is sorted by date
descending, and on the dataset with anomalies on 2024-01-10 and 2024-01-05
the 2024-01-10 entry comes first. -/
theorem C5_date_descending :
    (∀ (df : List CostRow) (t : ℚ), (detect_anomalies df t).Sorted dateGe) ∧
    (detect_anomalies exTwoSpikes 1).map Anomaly.date = [20240110, 20240105] := by
  constructor
  · intro df t
    unfold detect_anomalies
    split
    · exact List.sorted_nil
    · exact List.sorted_insertionSort dateGe _
  · with_unfolding_all rfl

/-- C7: counterexample.  The dataset exSparse has a window spanning 20
days, and under the spec reading the recent mean (1000, from the only date
in the last 7 calendar days) exceeds the overall mean (505) by more than
20 percent, so the claim requires the cost-spike warning; the code gates
the trend check on more than 7 distinct dates being present (len of the
groupby-by-date series), finds only 2, and emits no warning. -/
theorem C7_counterexample :
    7 < specWindowSpan exSparse ∧
    overallAvg exSparse * (6/5) < specRecentMean exSparse ∧
    spikeWarning ∉ generate_recommendations exSparse :=
  of_decide_eq_true (by with_unfolding_all rfl)

/-- C9: generate_recommendations is deterministic; in this embedding it is
a pure function of the dataset, so two runs on the same dataset are
definitionally equal, tie-break order included. -/
theorem C9_recommend_deterministic (df : List CostRow) :
    generate_recommendations df = generate_recommendations df := rfl

/-- C8: counterexample.  In exTie the service Alpha is encountered before
Beta and both total exactly 50, yet the ranking used for top services
lists Beta first: the groupby orders services alphabetically and the
descending value sort reverses a stable ascending sort, so exact ties come
out in reverse alphabetical order, not in first-encounter order. -/
theorem C8_counterexample :
    exTie.map CostRow.service = ["Alpha", "Beta"] ∧
    serviceRanking exTie = [("Beta", 50), ("Alpha", 50)] ∧
    (get_cost_summary exTie).map Summary.cost_by_service =
      Except.ok [("Beta", 50), ("Alpha", 50)] := by
  refine ⟨by decide, ?_, ?_⟩ <;> with_unfolding_all rfl

/-- C10: counterexample.  The claim quantifies over every threshold; at
the negative threshold -1 the provider of exOneDay, which has records on
exactly one distinct date, is flagged: the sample std of its one-element
series is NaN, the guard std_cost > 0 fails, the z-score is taken as 0,
and abs 0 > -1 holds. -/
theorem C10_counterexample :
    detect_anomalies exOneDay (-1) =
      [{ date := 1, provider := "AWS", cost := 100, severity := "medium" }] := by
  with_unfolding_all rfl

lemma rowAnomaly_provider_eq {mean : ℚ} {varOpt : Option ℚ} {t : ℚ}
    {x : (Nat × String) × ℚ} {a : Anomaly} (h : rowAnomaly mean varOpt t x = some a) :
    a.provider = x.1.2 := by
  unfold rowAnomaly at h
  split at h
  · cases h; rfl
  · cases h

lemma stdPosB_eq_false_of_le (varOpt : Option ℚ)
    (h : ∀ v, varOpt = some v → v ≤ 0) : stdPosB varOpt = false := by
  cases varOpt with
  | none => rfl
  | some v =>
    simp only [stdPosB, decide_eq_false_iff_not, not_lt]
    exact h v rfl

lemma rowFlagged_eq_false (varOpt : Option ℚ) (t dev : ℚ) (ht : 0 ≤ t)
    (hstd : stdPosB varOpt = false) : rowFlagged varOpt t dev = false := by
  unfold rowFlagged
  rw [hstd]
  simp only [Bool.false_eq_true, if_false, decide_eq_false_iff_not, not_lt]
  exact ht

lemma rowAnomaly_none_of_degenerate (mean : ℚ) (varOpt : Option ℚ) (t : ℚ)
    (x : (Nat × String) × ℚ) (ht : 0 ≤ t) (hstd : stdPosB varOpt = false) :
    rowAnomaly mean varOpt t x = none := by
  unfold rowAnomaly
  rw [rowFlagged_eq_false _ _ _ ht hstd]
  simp

lemma no_anomaly_of_degenerate_var (df : List CostRow) (t : ℚ) (p : String)
    (ht : 0 ≤ t)
    (hvar : ∀ v, sampleVar (providerCosts (dailyCosts df) p) = some v → v ≤ 0) :
    ∀ a ∈ detect_anomalies df t, a.provider ≠ p := by
  intro a ha hap
  unfold detect_anomalies at ha
  split at ha
  · cases ha
  · rw [List.Perm.mem_iff (List.perm_insertionSort dateGe _)] at ha
    rw [List.mem_flatMap] at ha
    obtain ⟨q, hq, haq⟩ := ha
    unfold providerAnomalies at haq
    rw [List.mem_filterMap] at haq
    obtain ⟨x, hx, hxa⟩ := haq
    have hprov : a.provider = x.1.2 := rowAnomaly_provider_eq hxa
    have hxq : x.1.2 = q := of_decide_eq_true (List.mem_filter.mp hx).2
    have hqp : q = p := by rw [← hxq, ← hprov, hap]
    subst hqp
    rw [rowAnomaly_none_of_degenerate _ _ _ _ ht (stdPosB_eq_false_of_le _ hvar)] at hxa
    cases hxa

lemma sampleVar_of_const (xs : List ℚ) (c : ℚ) (h : ∀ x ∈ xs, x = c) :
    ∀ v, sampleVar xs = some v → v ≤ 0 := by
  intro v hv
  unfold sampleVar at hv
  split at hv
  case isTrue hlen =>
    have hlen0 : (xs.length : ℚ) ≠ 0 := by
      have h2 : 0 < xs.length := lt_of_lt_of_le (by norm_num) hlen
      exact_mod_cast Nat.pos_iff_ne_zero.mp h2
    have hmean : xs.sum / (xs.length : ℚ) = c := by
      rw [List.sum_eq_card_nsmul xs c h, nsmul_eq_mul]
      field_simp
    have hterms : (xs.map (fun x => (x - xs.sum / (xs.length : ℚ)) ^ 2)).sum = 0 := by
      apply List.sum_eq_zero
      intro y hy
      rw [List.mem_map] at hy
      obtain ⟨x, hx, rfl⟩ := hy
      rw [hmean, h x hx, sub_self]
      norm_num
    rw [hterms] at hv
    cases hv
    simp
  case isFalse => cases hv

lemma sampleVar_of_short (xs : List ℚ) (h : xs.length ≤ 1) : sampleVar xs = none := by
  unfold sampleVar
  rw [if_neg]
  omega

/-- C3 amended: for every dataset in which some provider has the same
daily total cost on every day present, and every nonnegative threshold,
detect_anomalies reports zero anomalies for that provider.  (The original
claim quantified over all thresholds; C3_counterexample shows it fails at
a negative threshold, where abs 0 > threshold holds.) -/
theorem C3_amended_zero_variance (df : List CostRow) (t : ℚ) (p : String) (c : ℚ)
    (ht : 0 ≤ t)
    (hconst : ∀ x ∈ providerData (dailyCosts df) p, x.2 = c) :
    ∀ a ∈ detect_anomalies df t, a.provider ≠ p := by
  apply no_anomaly_of_degenerate_var df t p ht
  apply sampleVar_of_const _ c
  intro y hy
  rw [providerCosts, List.mem_map] at hy
  obtain ⟨x, hx, rfl⟩ := hy
  exact hconst x hx

/-- Witness for C3 amended at exTwoFlat with threshold 2. -/
theorem C3_amended_zero_variance_witness :
    (0:ℚ) ≤ 2 ∧
    ({ date := 2, provider := "AWS", cost := 100, severity := "medium" } : Anomaly)
      ∉ detect_anomalies exTwoFlat 2 :=
  ⟨by norm_num,
   fun hmem => C3_amended_zero_variance exTwoFlat 2 "AWS" 100 (by norm_num)
     (of_decide_eq_true (by with_unfolding_all rfl)) _ hmem rfl⟩

/-- C10 amended: for every dataset in which some provider has rows of the
daily series on at most one distinct date, and every nonnegative
threshold, detect_anomalies raises no error and reports no anomaly for
that provider: the sample std of a one-element series is NaN, the guard
std_cost > 0 fails, and the z-score is taken as 0.  (The original claim
quantified over all thresholds; C10_counterexample shows it fails at a
negative threshold.) -/
theorem C10_amended_single_day (df : List CostRow) (t : ℚ) (p : String)
    (ht : 0 ≤ t)
    (hone : (providerData (dailyCosts df) p).length ≤ 1) :
    ∀ a ∈ detect_anomalies df t, a.provider ≠ p := by
  apply no_anomaly_of_degenerate_var df t p ht
  intro v hv
  rw [sampleVar_of_short] at hv
  · cases hv
  · simpa [providerCosts, List.length_map] using hone

/-- Witness for C10 amended at exOneDay with threshold 2. -/
theorem C10_amended_single_day_witness :
    (0:ℚ) ≤ 2 ∧
    ({ date := 1, provider := "AWS", cost := 100, severity := "medium" } : Anomaly)
      ∉ detect_anomalies exOneDay 2 :=
  ⟨by norm_num,
   fun hmem => C10_amended_single_day exOneDay 2 "AWS" (by norm_num)
     (of_decide_eq_true (by with_unfolding_all rfl)) _ hmem rfl⟩

/-! Grouping lemmas towards C6: the grouped sums over the distinct keys
partition the total of the cost column. -/

lemma sum_map_filter_add {κ : Type} [DecidableEq κ] (key : CostRow → κ) (k : κ)
    (l : List CostRow) :
    (((l.filter (fun r => key r = k)).map CostRow.cost).sum
      + ((l.filter (fun r => ¬ key r = k)).map CostRow.cost).sum)
      = (l.map CostRow.cost).sum := by
  induction l with
  | nil => simp
  | cons r l ih =>
    by_cases hk : key r = k
    · simp only [List.filter_cons, hk, decide_True, decide_not, Bool.not_true,
        Bool.false_eq_true, if_false, if_true, List.map_cons, List.sum_cons]
      rw [← ih]
      simp only [decide_not]
      ring
    · simp only [List.filter_cons, hk, decide_False, decide_not, Bool.not_false,
        Bool.false_eq_true, if_false, if_true, List.map_cons, List.sum_cons]
      rw [← ih]
      simp only [decide_not]
      ring

lemma sum_over_keys {κ : Type} [DecidableEq κ] (key : CostRow → κ) :
    ∀ (K : List κ) (l : List CostRow), K.Nodup → (∀ r ∈ l, key r ∈ K) →
      (K.map (fun k => ((l.filter (fun r => key r = k)).map CostRow.cost).sum)).sum
        = (l.map CostRow.cost).sum := by
  intro K
  induction K with
  | nil =>
    intro l _ hall
    have : l = [] := List.eq_nil_iff_forall_not_mem.mpr (fun r hr => by
      simpa using hall r hr)
    simp [this]
  | cons k K ih =>
    intro l hnd hall
    have hnd2 := List.nodup_cons.mp hnd
    have hstep : (K.map (fun k2 =>
        ((l.filter (fun r => key r = k2)).map CostRow.cost).sum)).sum
        = (K.map (fun k2 =>
        (((l.filter (fun r => ¬ key r = k)).filter (fun r => key r = k2)).map
          CostRow.cost).sum)).sum := by
      apply congrArg
      apply List.map_congr_left
      intro k2 hk2
      have hkk2 : k ≠ k2 := fun he => hnd2.1 (he ▸ hk2)
      apply congrArg
      apply congrArg
      rw [List.filter_filter]
      apply List.filter_congr
      intro r _
      by_cases hr : key r = k2
      · simp [hr]
        exact fun he => hkk2 he.symm
      · simp [hr]
    rw [List.map_cons, List.sum_cons, hstep,
      ih (l.filter (fun r => ¬ key r = k)) hnd2.2 (fun r hr => by
        have hrl := List.mem_filter.mp hr
        have hin := hall r hrl.1
        rcases List.mem_cons.mp hin with he | hm
        · exact absurd he (by simpa using hrl.2)
        · exact hm)]
    exact sum_map_filter_add key k l

lemma mem_uniqueAux {α : Type} [DecidableEq α] (l : List α) (a : α) :
    ∀ seen, (a ∈ uniqueAux seen l ↔ a ∈ l ∧ a ∉ seen) := by
  induction l with
  | nil => intro seen; simp [uniqueAux]
  | cons b l ih =>
    intro seen
    by_cases hb : b ∈ seen
    · rw [uniqueAux, if_pos hb, ih]
      constructor
      · exact fun h => ⟨List.mem_cons_of_mem _ h.1, h.2⟩
      · rintro ⟨hm, hs⟩
        rcases List.mem_cons.mp hm with rfl | hm2
        · exact absurd hb hs
        · exact ⟨hm2, hs⟩
    · rw [uniqueAux, if_neg hb]
      constructor
      · intro h
        rcases List.mem_cons.mp h with rfl | h2
        · exact ⟨List.mem_cons_self _ _, hb⟩
        · have h3 := (ih (b :: seen)).mp h2
          exact ⟨List.mem_cons_of_mem _ h3.1,
            fun hs => h3.2 (List.mem_cons_of_mem _ hs)⟩
      · rintro ⟨hm, hs⟩
        rcases List.mem_cons.mp hm with rfl | hm2
        · exact List.mem_cons_self _ _
        · by_cases hab : a = b
          · subst hab; exact List.mem_cons_self _ _
          · refine List.mem_cons_of_mem _ ((ih (b :: seen)).mpr ⟨hm2, ?_⟩)
            simp [hab, hs]

lemma nodup_uniqueAux {α : Type} [DecidableEq α] (l : List α) :
    ∀ seen, (uniqueAux seen l).Nodup := by
  induction l with
  | nil => intro seen; simp [uniqueAux]
  | cons b l ih =>
    intro seen
    rw [uniqueAux]
    split
    · exact ih seen
    · refine List.nodup_cons.mpr ⟨fun hmem => ?_, ih (b :: seen)⟩
      exact ((mem_uniqueAux _ _ _).mp hmem).2 (List.mem_cons_self _ _)

lemma mem_uniqueList {α : Type} [DecidableEq α] (l : List α) (a : α) :
    a ∈ uniqueList l ↔ a ∈ l := by
  rw [uniqueList, mem_uniqueAux]
  simp

lemma nodup_uniqueList {α : Type} [DecidableEq α] (l : List α) :
    (uniqueList l).Nodup := nodup_uniqueAux l []

lemma groupSumBy_total {κ : Type} [DecidableEq κ] (le : κ → κ → Prop) [DecidableRel le]
    (key : CostRow → κ) (df : List CostRow) :
    ((groupSumBy le key df).map (fun x => x.2)).sum = (df.map CostRow.cost).sum := by
  unfold groupSumBy
  rw [List.map_map]
  have hperm := List.perm_insertionSort le (uniqueList (df.map key))
  apply sum_over_keys
  · exact hperm.nodup_iff.mpr (nodup_uniqueList _)
  · intro r hr
    rw [hperm.mem_iff, mem_uniqueList]
    exact List.mem_map_of_mem key hr

/-- C6: for every dataset whose summary exists, the values of the
cost_by_provider mapping sum to total_cost, exactly (the float tolerance of
the claim is not needed over exact rationals). -/
theorem C6_provider_sums_to_total (df : List CostRow) (s : Summary)
    (h : get_cost_summary df = Except.ok s) :
    (s.cost_by_provider.map (fun x => x.2)).sum = s.total_cost := by
  unfold get_cost_summary at h
  split at h
  · cases h
  · cases h
    exact groupSumBy_total _ _ df

/-- The summary of exOneDay, used by the C6 witness. -/
def exOneDaySummary : Summary :=
  { total_cost := 100, average_daily_cost := 100
  , cost_by_provider := [("AWS", 100)], cost_by_service := [("EC2", 100)]
  , date_range := (1, 1) }

/-- Witness for C6 at the one-row dataset exOneDay. -/
theorem C6_provider_sums_to_total_witness :
    (exOneDaySummary.cost_by_provider.map (fun x => x.2)).sum
      = exOneDaySummary.total_cost :=
  C6_provider_sums_to_total exOneDay exOneDaySummary (by with_unfolding_all rfl)

lemma take3_of_append (s t : String) (h : 3 ≤ s.data.length) :
    (s ++ t).data.take 3 = s.data.take 3 := by
  rw [String.data_append]
  exact List.take_append_of_le_length h

lemma ne_of_data_take3 {s t : String} (h : s.data.take 3 ≠ t.data.take 3) : s ≠ t :=
  fun he => h (he ▸ rfl)

lemma spike_notin_topServiceRecs (df : List CostRow) :
    spikeWarning ∉ topServiceRecs df := by
  intro hmem
  unfold topServiceRecs at hmem
  rw [List.mem_map] at hmem
  obtain ⟨sc, _, heq⟩ := hmem
  refine ne_of_data_take3 (t := spikeWarning) ?_ heq
  rw [String.append_assoc, String.append_assoc, String.append_assoc]
  rw [take3_of_append _ _ (by decide)]
  decide

lemma spike_notin_providerShareRecs (df : List CostRow) :
    spikeWarning ∉ providerShareRecs df := by
  intro hmem
  unfold providerShareRecs at hmem
  split at hmem
  · rw [List.mem_singleton] at hmem
    refine ne_of_data_take3 (t := spikeWarning) ?_ hmem.symm
    rw [String.append_assoc, String.append_assoc, String.append_assoc]
    rw [take3_of_append _ _ (by decide)]
    decide
  · cases hmem

lemma trendRecs_of_long (df : List CostRow) (h : 7 < (dailyTotals df).length) :
    trendRecs df = if overallAvg df * (6/5) < recentAvg df then [spikeWarning] else [] := by
  unfold trendRecs
  rw [if_pos h]

lemma isEmpty_false_of_dailyTotals (df : List CostRow)
    (h : 7 < (dailyTotals df).length) : df.isEmpty = false := by
  cases hdf : df with
  | nil =>
    subst hdf
    exact absurd h (by decide)
  | cons r l => rfl

/-- C7 amended: for every dataset with more than 7 distinct dates present,
generate_recommendations emits the cost-spike warning iff the mean of the
last 7 daily totals exceeds the mean of all daily totals by more than 20
percent, and the warning, when emitted, is the last recommendation.  (The
original claim gated the check on the window spanning more than 7 days and
compared calendar-day means; C7_counterexample shows the code gates on
distinct dates present.) -/
theorem C7_amended_trend (df : List CostRow) (h : 7 < (dailyTotals df).length) :
    (spikeWarning ∈ generate_recommendations df ↔
      overallAvg df * (6/5) < recentAvg df) ∧
    (spikeWarning ∈ generate_recommendations df →
      (generate_recommendations df).getLast? = some spikeWarning) := by
  have hne : df.isEmpty = false := isEmpty_false_of_dailyTotals df h
  have hgen : generate_recommendations df
      = topServiceRecs df ++ providerShareRecs df ++ trendRecs df := by
    unfold generate_recommendations
    rw [hne]
    simp
  have hiff : spikeWarning ∈ generate_recommendations df ↔
      overallAvg df * (6/5) < recentAvg df := by
    rw [hgen]
    constructor
    · intro hmem
      rcases List.mem_append.mp hmem with h12 | h3
      · rcases List.mem_append.mp h12 with h1 | h2
        · exact absurd h1 (spike_notin_topServiceRecs df)
        · exact absurd h2 (spike_notin_providerShareRecs df)
      · rw [trendRecs_of_long df h] at h3
        by_cases hc : overallAvg df * (6/5) < recentAvg df
        · exact hc
        · rw [if_neg hc] at h3; cases h3
    · intro hc
      apply List.mem_append.mpr
      right
      rw [trendRecs_of_long df h, if_pos hc]
      exact List.mem_singleton.mpr rfl
  refine ⟨hiff, fun hmem => ?_⟩
  have hc := hiff.mp hmem
  rw [hgen, trendRecs_of_long df h, if_pos hc]
  exact List.getLast?_concat _

/-- Fourteen consecutive days, the last seven at a tenfold cost. -/
def exTrend : List CostRow :=
  mkRows "AWS" "svc"
    [(1, 10), (2, 10), (3, 10), (4, 10), (5, 10), (6, 10), (7, 10),
     (8, 100), (9, 100), (10, 100), (11, 100), (12, 100), (13, 100), (14, 100)]

set_option maxRecDepth 100000 in
/-- Witness for C7 amended at exTrend: 14 distinct dates, recent mean 100
against overall mean 55. -/
theorem C7_amended_trend_witness :
    7 < (dailyTotals exTrend).length ∧
    ((spikeWarning ∈ generate_recommendations exTrend ↔
      overallAvg exTrend * (6/5) < recentAvg exTrend) ∧
    (spikeWarning ∈ generate_recommendations exTrend →
      (generate_recommendations exTrend).getLast? = some spikeWarning)) :=
  ⟨of_decide_eq_true (by with_unfolding_all rfl),
   C7_amended_trend exTrend (of_decide_eq_true (by with_unfolding_all rfl))⟩

/-! Towards C8: the value-ascending insertion sort of a list with strictly
ascending keys is sorted under the strict lexicographic order on
(value, key); reversing yields the descending ranking with ties in reverse
key order. -/

/-- Strict lexicographic order: value first, then key. -/
def valKeyLt (a b : String × ℚ) : Prop := a.2 < b.2 ∨ (a.2 = b.2 ∧ a.1 < b.1)

lemma orderedInsert_lex (x : String × ℚ) :
    ∀ (m : List (String × ℚ)), m.Pairwise valKeyLt → (∀ y ∈ m, x.1 < y.1) →
      (List.orderedInsert (fun a b => a.2 ≤ b.2) x m).Pairwise valKeyLt := by
  intro m
  induction m with
  | nil =>
    intro _ _
    simp [List.orderedInsert]
  | cons b m ih =>
    intro hp hx
    rw [List.orderedInsert]
    split
    case isTrue hle =>
      refine List.pairwise_cons.mpr ⟨?_, hp⟩
      intro y hy
      rcases List.mem_cons.mp hy with rfl | hym
      · rcases lt_or_eq_of_le hle with hlt | heq
        · exact Or.inl hlt
        · exact Or.inr ⟨heq, hx y (List.mem_cons_self _ _)⟩
      · have hby := (List.pairwise_cons.mp hp).1 y hym
        rcases hby with hlt | ⟨heq, _⟩
        · rcases lt_or_eq_of_le hle with hlt2 | heq2
          · exact Or.inl (lt_trans hlt2 hlt)
          · exact Or.inl (heq2 ▸ hlt)
        · rcases lt_or_eq_of_le hle with hlt2 | heq2
          · exact Or.inl (heq ▸ hlt2)
          · exact Or.inr ⟨heq2.trans heq, hx y (List.mem_cons_of_mem _ hym)⟩
    case isFalse hgt =>
      have hbx : b.2 < x.2 := lt_of_not_le hgt
      refine List.pairwise_cons.mpr ⟨?_, ih (List.pairwise_cons.mp hp).2
        (fun y hy => hx y (List.mem_cons_of_mem _ hy))⟩
      intro y hy
      rcases (List.mem_orderedInsert _).mp hy with rfl | hym
      · exact Or.inl hbx
      · exact (List.pairwise_cons.mp hp).1 y hym

lemma insertionSort_lex :
    ∀ (l : List (String × ℚ)), l.Pairwise (fun a b => a.1 < b.1) →
      (List.insertionSort (fun a b => a.2 ≤ b.2) l).Pairwise valKeyLt := by
  intro l
  induction l with
  | nil =>
    intro _
    simp [List.insertionSort]
  | cons x l ih =>
    intro hp
    rw [List.insertionSort]
    apply orderedInsert_lex
    · exact ih (List.pairwise_cons.mp hp).2
    · intro y hy
      have hyl : y ∈ l := (List.perm_insertionSort _ l).mem_iff.mp hy
      exact (List.pairwise_cons.mp hp).1 y hyl

lemma groupSumBy_keys_strict {κ : Type} [DecidableEq κ] [LinearOrder κ]
    (key : CostRow → κ) (df : List CostRow) :
    (groupSumBy (fun a b => a ≤ b) key df).Pairwise (fun a b => a.1 < b.1) := by
  unfold groupSumBy
  rw [List.pairwise_map]
  have hsorted : (List.insertionSort (fun a b => a ≤ b)
      (uniqueList (df.map key))).Sorted (fun a b => a ≤ b) :=
    List.sorted_insertionSort _ _
  have hnd : (List.insertionSort (fun a b => a ≤ b)
      (uniqueList (df.map key))).Nodup :=
    (List.perm_insertionSort _ _).nodup_iff.mpr (nodup_uniqueList _)
  exact List.Sorted.lt_of_le hsorted hnd

/-- C8 amended: the per-service ranking used for top services is strictly
sorted under (total cost descending, then service name descending): costs
are descending, and two services with exactly equal total cost appear in
reverse alphabetical order of name, not in first-encounter order (see
C8_counterexample). -/
theorem C8_amended_ranking (df : List CostRow) :
    (serviceRanking df).Pairwise
      (fun a b => b.2 < a.2 ∨ (a.2 = b.2 ∧ b.1 < a.1)) := by
  unfold serviceRanking sortValuesDesc
  rw [List.pairwise_reverse]
  have h := insertionSort_lex (serviceSums df) (groupSumBy_keys_strict _ df)
  apply List.Pairwise.imp ?_ h
  intro a b hab
  rcases hab with h1 | ⟨h2, h3⟩
  · exact Or.inl h1
  · exact Or.inr ⟨h2.symm, h3⟩
